import Mathlib

/-!
Shallow embedding of the character-device message-passing driver
(`charDeviceDriver.h` / `charDeviceDriverBlocking.c`).

The driver keeps one global singly-linked FIFO `message_queue` protected by a
single mutex, with two wait queues (reader blocks while the queue is empty,
writer blocks while there is no room).  We model the queue as a Lean list
(head of the list = head of the linked list, `queuep->rear` = last element),
byte payloads as `List Nat`, and the C unsigned integers as `Nat` with
explicit reductions where the machine arithmetic can wrap.  The
`message_size` field has C type `unsigned short`, so the length parameters of
`enqueue` and `is_space_in_queue` are reduced `% 65536` where they enter; all
driver-level calls pass a length `<= 4096`, where the reduction is the
identity.  `messages_size` has C type `unsigned long`: the addition in
`enqueue` and the admission sum in `is_space_in_queue` are taken
`% ULONG_MOD` (`2^64`), and this wrap is observable — a run that raises the
aggregate limit to `2^64 - 1` and then keeps writing is admitted at every
step and wraps `messages_size` back to `0` with the nodes still linked,
breaking invariant I3 (see the counterexample below).  The subtraction in
`dequeue` is modelled as truncated `Nat` subtraction; it agrees with the C
wrap whenever `messages_size` is at least the head node's `message_size`,
which invariant I3 guarantees in every state the bounded capacity theorem
quantifies over, and no theorem below relies on its value elsewhere.

Blocking (`wait_event`) is modelled by making the device operations return
`Option`: `none` means the caller is still blocked because the wait predicate
is false in the current state.  `put_user` / `get_user` are modelled as always
succeeding (the user buffer is given as a Lean list), and `kmalloc` outcomes
are explicit booleans where the claim under study is about allocation failure
(`enqueue_result`); the plain `enqueue` is the all-allocations-succeed path
used by `device_write`.  The `queuep == NULL` guard branches of the C helpers
are omitted: the modelled state is the queue after a successful
`initialise_queue`, which the module init code guarantees before any file
operation can run.
-/

namespace CharDev

/-- Constant `SUCCESS` from `charDeviceDriver.h`. -/
def SUCCESS : Int := 0

/-- Linux `EINVAL` errno; the driver returns `-EINVAL`. -/
def EINVAL : Int := 22

/-- Linux `EFAULT` errno; the driver returns `-EFAULT`. -/
def EFAULT : Int := 14

/-- Constant `MAX_MESSAGE_SIZE` from `charDeviceDriver.h`: fixed per-message cap, 4 KiB. -/
def MAX_MESSAGE_SIZE : Nat := 4096

/-- Constant `CHANGE_MAX_MESSAGES_SIZE` from `charDeviceDriver.h`: the ioctl command number. -/
def CHANGE_MAX_MESSAGES_SIZE : Nat := 0

/-- Initial value of the global `MAX_MESSAGES_SIZE`: 2 MiB aggregate cap. -/
def INITIAL_MAX_MESSAGES_SIZE : Nat := 2097152

/-- Modulus of the C `unsigned long` type (64-bit): `2^64`.  `messages_size`,
`MAX_MESSAGES_SIZE` and the ioctl parameter all have this type, so sums of
`messages_size` wrap at this value. -/
def ULONG_MOD : Nat := 18446744073709551616

/-- Type of `struct message_queue_data`: a stored payload and its length
(`unsigned short message_size`). -/
structure MessageQueueData where
  message : List Nat
  message_size : Nat
  deriving Repr, DecidableEq

/-- Type of `struct message_queue`: the linked list of nodes from `head` to `rear`
(modelled as the list `queue`) together with the running byte total
`messages_size` (`unsigned long`). -/
structure MessageQueue where
  queue : List MessageQueueData
  messages_size : Nat
  deriving Repr, DecidableEq

/-- The queue produced by `initialise_queue` when `kmalloc` succeeds:
`head = rear = NULL`, `messages_size = 0`. -/
def initialise_queue : MessageQueue := { queue := [], messages_size := 0 }

/-- Function `enqueue` (all three `kmalloc` calls succeed): copy `message_size` bytes of
the caller's buffer into a fresh node, link it at `rear`, and add the new
node's `message_size` to `queuep->messages_size`.  The `% 65536` reduction is
the `unsigned short` type of the `message_size` parameter; the `% ULONG_MOD`
reduction is the `unsigned long` addition on `messages_size`. -/
def enqueue (q : MessageQueue) (message : List Nat) (message_size : Nat) :
    MessageQueue :=
  let sz := message_size % 65536
  { queue := q.queue ++ [{ message := message.take sz, message_size := sz }],
    messages_size := (q.messages_size + sz) % ULONG_MOD }

/-- Variant of `enqueue` with the outcome of each of its three `kmalloc` calls
(node, data, message buffer) made explicit.  Returns the C return value, the
queue state afterwards, the number of allocations that succeeded, and the
number of `kfree` calls issued on the failure paths: a failed `kmalloc`
allocates nothing, the earlier allocations are freed in the order the C code
frees them, and a successful call links all three allocations into the queue
and frees nothing. -/
def enqueue_result (q : MessageQueue) (message : List Nat) (message_size : Nat)
    (node_ok data_ok msg_ok : Bool) : Int × MessageQueue × Nat × Nat :=
  if !node_ok then
    (-1, q, 0, 0)
  else if !data_ok then
    (-1, q, 1, 1)
  else if !msg_ok then
    (-1, q, 2, 2)
  else
    (SUCCESS, enqueue q message message_size, 3, 0)

/-- Function `dequeue`: `NULL` when `head == NULL`; otherwise detach the head node,
move `head` forward (clearing `rear` when it was the only node), subtract
its `message_size`, and hand the data to the caller.  The `unsigned long`
subtraction is modelled as truncated `Nat` subtraction; the two agree whenever
`messages_size >= head.message_size`, which holds in every state where
`messages_size` is the exact sum of the resident lengths. -/
def dequeue (q : MessageQueue) : Option MessageQueueData × MessageQueue :=
  match q.queue with
  | [] => (none, q)
  | d :: rest => (some d, { queue := rest, messages_size := q.messages_size - d.message_size })

/-- Function `is_queue_empty`: `1` iff `queuep->messages_size == 0`, else `0`.
Note it inspects the byte total, not the presence of nodes. -/
def is_queue_empty (q : MessageQueue) : Int :=
  if q.messages_size = 0 then 1 else 0

/-- Function `is_space_in_queue`: `0` when `messages_size + length > MAX_MESSAGES_SIZE`,
else `1`.  The global `MAX_MESSAGES_SIZE` is passed explicitly; the `length`
parameter has C type `unsigned short` (reduced `% 65536`), and the sum is
`unsigned long` arithmetic, wrapping at `ULONG_MOD`. -/
def is_space_in_queue (q : MessageQueue) (length : Nat)
    (max_messages_size : Nat) : Int :=
  if (q.messages_size + length % 65536) % ULONG_MOD > max_messages_size then 0
  else 1

/-- The mutable driver state seen by the file operations: the global queue
`queuep` and the global aggregate limit `MAX_MESSAGES_SIZE`. -/
structure DriverState where
  queuep : MessageQueue
  MAX_MESSAGES_SIZE : Nat
  deriving Repr, DecidableEq

/-- Driver state right after module init: fresh queue, 2 MiB limit. -/
def initState : DriverState :=
  { queuep := initialise_queue, MAX_MESSAGES_SIZE := INITIAL_MAX_MESSAGES_SIZE }

/-- The copy loop of `device_read`:
`while(tmp_length && *tmp_message) { put_user(...); tmp_length--; }`.
Stops at `tmp_length = 0`, at a zero byte, or (never reached when
`tmp_length <= message length`) at the end of the buffer. -/
def read_loop : Nat → List Nat → List Nat
  | 0, _ => []
  | _ + 1, [] => []
  | n + 1, b :: rest => if b = 0 then [] else b :: read_loop n rest

/-- Function `device_read`: block (`none`) until `is_queue_empty` returns `0`; then
dequeue, cap the count at `min(length, message_size)`, copy bytes to the user
until the cap or a zero byte, free the message, and return `bytes_read`
together with the bytes delivered to the user buffer.  The branch where
`dequeue` returns `NULL` despite `messages_size != 0` would dereference a null
pointer in C; it is unreachable from any reachable state (invariant I3). -/
def device_read (st : DriverState) (length : Nat) :
    Option ((Int × List Nat) × DriverState) :=
  if is_queue_empty st.queuep = 0 then
    match dequeue st.queuep with
    | (some tmp_data, q') =>
      let tmp_length := if tmp_data.message_size ≥ length then length
                        else tmp_data.message_size
      let delivered := read_loop tmp_length tmp_data.message
      some (((delivered.length : Int), delivered), { st with queuep := q' })
    | (none, _) => none
  else
    none

/-- Function `device_write`: reject with `-EINVAL` when `length > MAX_MESSAGE_SIZE`
(before any wait); otherwise block (`none`) until `is_space_in_queue` returns
`1`, copy the user buffer, enqueue it, and return the byte count. -/
def device_write (st : DriverState) (buffer : List Nat) (length : Nat) :
    Option (Int × DriverState) :=
  if length > MAX_MESSAGE_SIZE then
    some (-EINVAL, st)
  else if is_space_in_queue st.queuep length st.MAX_MESSAGES_SIZE = 1 then
    some ((length : Int), { st with queuep := enqueue st.queuep buffer length })
  else
    none

/-- Function `device_ioctl`: for command `CHANGE_MAX_MESSAGES_SIZE`, set the global
limit to `ioctl_param` iff `ioctl_param > queuep->messages_size` (evaluated
under the lock); every other case returns `-EINVAL` and changes nothing. -/
def device_ioctl (st : DriverState) (ioctl_num : Nat) (ioctl_param : Nat) :
    Int × DriverState :=
  if ioctl_num = CHANGE_MAX_MESSAGES_SIZE then
    if ioctl_param > st.queuep.messages_size then
      (SUCCESS, { st with MAX_MESSAGES_SIZE := ioctl_param })
    else
      (-EINVAL, st)
  else
    (-EINVAL, st)

/-- States reachable from module init by completed device operations, each
executed to completion without interleaving (the sequential semantics; the
race between `is_space_in_queue` and `enqueue` inside `device_write` is
studied separately with `write_check` / `write_commit`). -/
inductive Reachable : DriverState → Prop
  | init : Reachable initState
  | write (st st' : DriverState) (buffer : List Nat) (length : Nat) (r : Int) :
      Reachable st → device_write st buffer length = some (r, st') →
      Reachable st'
  | read (st st' : DriverState) (length : Nat) (r : Int × List Nat) :
      Reachable st → device_read st length = some (r, st') → Reachable st'
  | ioctl (st : DriverState) (ioctl_num ioctl_param : Nat) :
      Reachable st → Reachable (device_ioctl st ioctl_num ioctl_param).2

/-- The `wait_event` predicate of `device_write` as the C code evaluates it:
`is_space_in_queue(queuep, length) == 1`, checked under the lock — which is
then released before `enqueue` re-acquires it. -/
def write_check (st : DriverState) (length : Nat) : Bool :=
  is_space_in_queue st.queuep length st.MAX_MESSAGES_SIZE = 1

/-- The mutation half of `device_write` (the `enqueue` call), as it runs under
its own, separate lock acquisition. -/
def write_commit (st : DriverState) (buffer : List Nat) (length : Nat) :
    DriverState :=
  { st with queuep := enqueue st.queuep buffer length }

/-- A burst of sends completed before any receive: enqueue each payload in
order, each with its own length (as `device_write` does for admitted writes). -/
def enqueue_list (q : MessageQueue) (msgs : List (List Nat)) : MessageQueue :=
  msgs.foldl (fun acc m => enqueue acc m m.length) q

/-- Fuelled helper for `drain`: dequeue repeatedly, collecting the payloads in
the order `dequeue` hands them out, until `dequeue` reports an empty queue. -/
def drainAux : Nat → MessageQueue → List (List Nat)
  | 0, _ => []
  | n + 1, q =>
    match dequeue q with
    | (none, _) => []
    | (some d, q') => d.message :: drainAux n q'

/-- Receive everything: the sequence of payloads returned by successive
`dequeue` calls until the queue is exhausted. -/
def drain (q : MessageQueue) : List (List Nat) :=
  drainAux q.queue.length q

/-- Sum of the stored lengths of all messages currently linked from `head`
(the quantity invariant I3 compares `messages_size` against). -/
def queue_bytes (q : MessageQueue) : Nat :=
  (q.queue.map (fun d => d.message_size)).sum

/-- A driver state with exactly 100 bytes queued (one 100-byte message) and
the default aggregate limit; used to check the resize-guard examples. -/
def hundredByteState : DriverState :=
  { queuep := { queue := [{ message := List.replicate 100 7, message_size := 100 }],
                messages_size := 100 },
    MAX_MESSAGES_SIZE := INITIAL_MAX_MESSAGES_SIZE }

/-- A 10-byte zero-free payload for the truncated-receive example. -/
def tenMessage : List Nat := [1, 2, 3, 4, 5, 6, 7, 8, 9, 10]

/-- Driver state holding exactly the 10-byte message `tenMessage`. -/
def tenState : DriverState :=
  { queuep := { queue := [{ message := tenMessage, message_size := 10 }],
                messages_size := 10 },
    MAX_MESSAGES_SIZE := INITIAL_MAX_MESSAGES_SIZE }

/-- The state left after receiving the single message of `tenState`. -/
def drainedTenState : DriverState :=
  { queuep := { queue := [], messages_size := 0 },
    MAX_MESSAGES_SIZE := INITIAL_MAX_MESSAGES_SIZE }

/-- Driver state after writing the 3-byte message `[1, 2, 3]` to a fresh
queue; a small reachable state for exercising the capacity invariant. -/
def threeByteState : DriverState :=
  { queuep := { queue := [{ message := [1, 2, 3], message_size := 3 }],
                messages_size := 3 },
    MAX_MESSAGES_SIZE := INITIAL_MAX_MESSAGES_SIZE }

/-- Driver state holding the 3-byte message `[5, 0, 7]`, whose middle byte is
zero, for the zero-byte early-termination example. -/
def zeroByteState : DriverState :=
  { queuep := { queue := [{ message := [5, 0, 7], message_size := 3 }],
                messages_size := 3 },
    MAX_MESSAGES_SIZE := INITIAL_MAX_MESSAGES_SIZE }

/-- Driver state after a successful zero-length write against a fresh queue:
one node is linked but `messages_size` is still `0`. -/
def zeroLenState : DriverState :=
  { queuep := { queue := [{ message := [], message_size := 0 }], messages_size := 0 },
    MAX_MESSAGES_SIZE := INITIAL_MAX_MESSAGES_SIZE }

/-- Driver state reached from `initState` by the ioctl that lowers the
aggregate limit to 5 bytes; the interleaving of two concurrent writers is
examined from here. -/
def raceState : DriverState :=
  (device_ioctl initState CHANGE_MAX_MESSAGES_SIZE 5).2

/-- States reachable by completed serialized operations whose resize requests
all stay at most `ULONG_MOD - 65536`: in such runs `messages_size` is bounded
by a limit small enough that no `unsigned long` addition can wrap (any single
admission adds less than 65536 bytes), so the machine arithmetic coincides
with exact arithmetic.  Runs outside this restriction can wrap `messages_size`
and break the byte-count invariant (see the counterexample). -/
inductive ReachableBounded : DriverState → Prop
  | init : ReachableBounded initState
  | write (st st' : DriverState) (buffer : List Nat) (length : Nat) (r : Int) :
      ReachableBounded st → device_write st buffer length = some (r, st') →
      ReachableBounded st'
  | read (st st' : DriverState) (length : Nat) (r : Int × List Nat) :
      ReachableBounded st → device_read st length = some (r, st') →
      ReachableBounded st'
  | ioctl (st : DriverState) (ioctl_num ioctl_param : Nat) :
      ioctl_param ≤ ULONG_MOD - 65536 → ReachableBounded st →
      ReachableBounded (device_ioctl st ioctl_num ioctl_param).2

/-- One 4096-byte node, the building block of the wrap-around run. -/
def wrapNode : MessageQueueData :=
  { message := List.replicate 4096 1, message_size := 4096 }

/-- The driver state after raising the aggregate limit to `2^64 - 1` and then
completing `n` admitted 4096-byte writes: `n` resident nodes and the wrapped
`unsigned long` byte total `(4096 * n) % ULONG_MOD`. -/
def wrapStateAux (n : Nat) : DriverState :=
  { queuep := { queue := List.replicate n wrapNode,
                messages_size := (4096 * n) % ULONG_MOD },
    MAX_MESSAGES_SIZE := ULONG_MOD - 1 }

/-- The reachable state after `2^52` such writes: `2^64` bytes of resident
messages while the wrapped `messages_size` reads `0`. -/
def wrapState : DriverState := wrapStateAux (2 ^ 52)

/-! Helper lemmas shared by the claim theorems. -/

/-- Unfolding lemma for `dequeue` on a non-empty queue. -/
lemma dequeue_eq_of_queue_cons (q : MessageQueue) (d : MessageQueueData)
    (rest : List MessageQueueData) (hq : q.queue = d :: rest) :
    dequeue q =
      (some d, MessageQueue.mk rest (q.messages_size - d.message_size)) := by
  unfold dequeue
  rw [hq]

/-- Unfolding lemma for `dequeue` on an empty queue. -/
lemma dequeue_eq_of_queue_nil (q : MessageQueue) (hq : q.queue = []) :
    dequeue q = (none, q) := by
  unfold dequeue
  rw [hq]

/-- Evaluation of `device_read` when the wait predicate holds and a head node
exists. -/
lemma device_read_eq (st : DriverState) (L : Nat) (d : MessageQueueData)
    (rest : List MessageQueueData) (hq : st.queuep.queue = d :: rest)
    (hnz : st.queuep.messages_size ≠ 0) :
    device_read st L =
      some ((((read_loop (if d.message_size ≥ L then L else d.message_size)
            d.message).length : Int),
          read_loop (if d.message_size ≥ L then L else d.message_size) d.message),
        DriverState.mk
          (MessageQueue.mk rest (st.queuep.messages_size - d.message_size))
          st.MAX_MESSAGES_SIZE) := by
  have hiq : is_queue_empty st.queuep = 0 := by simp [is_queue_empty, hnz]
  unfold device_read
  rw [if_pos hiq, dequeue_eq_of_queue_cons st.queuep d rest hq]

/-- A read against a nodeless queue never returns (it either blocks forever or,
when `messages_size` lies about the nodes, dereferences `NULL`). -/
lemma device_read_nil (st : DriverState) (L : Nat) (hq : st.queuep.queue = []) :
    device_read st L = none := by
  unfold device_read
  by_cases hiq : is_queue_empty st.queuep = 0
  · rw [if_pos hiq, dequeue_eq_of_queue_nil st.queuep hq]
  · rw [if_neg hiq]

/-- A read blocks (`wait_event` never satisfied) while the byte total is 0. -/
lemma device_read_blocked (st : DriverState) (L : Nat)
    (hz : st.queuep.messages_size = 0) : device_read st L = none := by
  unfold device_read
  rw [if_neg]
  simp [is_queue_empty, hz]

/-- The copy loop delivers the zero-free prefix of the first `n` bytes. -/
lemma read_loop_eq : ∀ (n : Nat) (msg : List Nat),
    read_loop n msg = (msg.take n).takeWhile (fun b => b != 0) := by
  intro n
  induction n with
  | zero => intro msg; simp [read_loop]
  | succ n ih =>
    intro msg
    cases msg with
    | nil => simp [read_loop]
    | cons b rest =>
      by_cases hb : b = 0
      · subst hb; simp [read_loop, List.takeWhile]
      · have hb' : (b != 0) = true := by simp [hb]
        simp [read_loop, hb, hb', List.takeWhile, ih]

/-- On a zero-free buffer the copy loop is a plain `take`. -/
lemma read_loop_no_zero : ∀ (n : Nat) (msg : List Nat),
    (∀ b ∈ msg, b ≠ 0) → read_loop n msg = msg.take n := by
  intro n
  induction n with
  | zero => intro msg _; simp [read_loop]
  | succ n ih =>
    intro msg h
    cases msg with
    | nil => simp [read_loop]
    | cons b rest =>
      have hb : b ≠ 0 := h b (List.mem_cons_self _ _)
      simp [read_loop, hb, ih rest (fun x hx => h x (List.mem_cons_of_mem _ hx))]

/-- Unfolding lemma: `enqueue_list` over a cons performs the first enqueue. -/
lemma enqueue_list_cons (q : MessageQueue) (m : List Nat)
    (msgs : List (List Nat)) :
    enqueue_list q (m :: msgs) = enqueue_list (enqueue q m m.length) msgs := rfl

/-- Enqueuing a burst of short messages appends them, in order, at the rear. -/
lemma enqueue_list_queue : ∀ (msgs : List (List Nat)) (q : MessageQueue),
    (∀ m ∈ msgs, m.length < 65536) →
    (enqueue_list q msgs).queue =
      q.queue ++ msgs.map (fun m => { message := m, message_size := m.length }) := by
  intro msgs
  induction msgs with
  | nil => intro q _; simp [enqueue_list]
  | cons m msgs ih =>
    intro q h
    have hm : m.length < 65536 := h m (List.mem_cons_self _ _)
    rw [enqueue_list_cons, ih _ (fun x hx => h x (List.mem_cons_of_mem _ hx))]
    simp [enqueue, Nat.mod_eq_of_lt hm, List.take_length]

/-- Draining returns the payloads of the resident nodes from head to rear. -/
lemma drainAux_eq : ∀ (l : List MessageQueueData) (s : Nat),
    drainAux l.length { queue := l, messages_size := s } =
      l.map (fun d => d.message) := by
  intro l
  induction l with
  | nil => intro s; rfl
  | cons d rest ih =>
    intro s
    simp only [List.length_cons, drainAux,
      dequeue_eq_of_queue_cons { queue := d :: rest, messages_size := s } d rest rfl]
    simp [ih]

/-- Version of `drainAux_eq` stated for `drain`. -/
lemma drain_eq (q : MessageQueue) :
    drain q = q.queue.map (fun d => d.message) := by
  cases q with
  | mk l s => exact drainAux_eq l s

/-- The `tmp_length` computation of `device_read` is `min length message_size`. -/
lemma tmp_length_eq (L sz : Nat) : (if sz ≥ L then L else sz) = min L sz := by
  simp [ge_iff_le, Nat.min_def]

/-! Claim theorems. -/

/-- C1.  Strict FIFO delivery: enqueue a sequence of messages `m1, ..., mk`
(each admissible, i.e. no longer than the 4096-byte per-message cap, so the
`unsigned short` length is exact) into the fresh queue before any receive;
the successive dequeues then return exactly `m1, ..., mk` in that order —
`enqueue` links at the rear, `dequeue` removes from the head, and no
reordering operation exists. -/
theorem fifo_delivery (msgs : List (List Nat))
    (h : ∀ m ∈ msgs, m.length ≤ MAX_MESSAGE_SIZE) :
    drain (enqueue_list initialise_queue msgs) = msgs := by
  have hlt : ∀ m ∈ msgs, m.length < 65536 := fun m hm =>
    lt_of_le_of_lt (h m hm) (by norm_num [MAX_MESSAGE_SIZE])
  rw [drain_eq, enqueue_list_queue msgs initialise_queue hlt]
  simp only [initialise_queue, List.nil_append, List.map_map]
  exact List.map_id msgs

/-- Witness for C1 on the concrete burst `[[1,2,3], [4], [5,6]]`. -/
theorem fifo_delivery_witness :
    (∀ m ∈ [[1, 2, 3], [4], [5, 6]], List.length m ≤ MAX_MESSAGE_SIZE) ∧
    drain (enqueue_list initialise_queue [[1, 2, 3], [4], [5, 6]]) =
      [[1, 2, 3], [4], [5, 6]] :=
  ⟨by decide, fifo_delivery [[1, 2, 3], [4], [5, 6]] (by decide)⟩

/-- C2.  Resize guard with strict inequality: the `CHANGE_MAX_MESSAGES_SIZE`
ioctl succeeds, installing `ioctl_param` as the new aggregate limit, exactly
when `ioctl_param > queuep->messages_size` at the instant of the check, and
fails with `-EINVAL` otherwise; with 100 bytes queued, `set_capacity 50` and
`set_capacity 100` fail while `set_capacity 101` succeeds, even though 101 is
far below the previous limit of 2097152. -/
theorem resize_guard :
    (∀ (st : DriverState) (x : Nat),
      device_ioctl st CHANGE_MAX_MESSAGES_SIZE x =
        if x > st.queuep.messages_size then
          (SUCCESS, DriverState.mk st.queuep x)
        else (-EINVAL, st)) ∧
    (device_ioctl hundredByteState CHANGE_MAX_MESSAGES_SIZE 50).1 ≠ SUCCESS ∧
    (device_ioctl hundredByteState CHANGE_MAX_MESSAGES_SIZE 101).1 = SUCCESS ∧
    (device_ioctl hundredByteState CHANGE_MAX_MESSAGES_SIZE 100).1 ≠ SUCCESS ∧
    (device_ioctl hundredByteState CHANGE_MAX_MESSAGES_SIZE 101).2.MAX_MESSAGES_SIZE
      = 101 ∧
    101 < hundredByteState.MAX_MESSAGES_SIZE := by
  refine ⟨fun st x => ?_, by decide, by decide, by decide, by decide, by decide⟩
  unfold device_ioctl
  rw [if_pos rfl]

/-- C3.  Per-message cap rejection: a write whose `length` exceeds
`MAX_MESSAGE_SIZE = 4096` returns `-EINVAL` immediately — the rejection comes
before the `wait_event`, so the call does not block (it returns `some`, not
the blocked `none`) and the driver state, queue head, rear and byte total
included, is exactly the input state. -/
theorem per_message_cap (st : DriverState) (buffer : List Nat) (length : Nat)
    (h : length > MAX_MESSAGE_SIZE) :
    device_write st buffer length = some (-EINVAL, st) := by
  unfold device_write
  rw [if_pos h]

/-- Witness for C3: a 4097-byte write bounces off the fresh driver state. -/
theorem per_message_cap_witness :
    4097 > MAX_MESSAGE_SIZE ∧
    device_write initState (List.replicate 4097 1) 4097 =
      some (-EINVAL, initState) :=
  ⟨by decide, per_message_cap initState (List.replicate 4097 1) 4097 (by decide)⟩

/-- C4.  Truncated receive: reading the head message (stored length
`message_size`, payload free of zero bytes) with budget `L` delivers exactly
`min L message_size` bytes — the first `L` bytes when the stored message is
longer, the whole payload when `L` is at least the stored length — and the
remainder of a truncated message is discarded with the dequeued node, never
buffered for a follow-up read. -/
theorem truncated_receive (st : DriverState) (L : Nat) (d : MessageQueueData)
    (rest : List MessageQueueData)
    (hq : st.queuep.queue = d :: rest)
    (hsz : d.message_size = d.message.length)
    (hnz : st.queuep.messages_size ≠ 0)
    (h0 : ∀ b ∈ d.message, b ≠ 0) :
    device_read st L =
      some ((((min L d.message_size : Nat) : Int), d.message.take L),
        DriverState.mk
          (MessageQueue.mk rest (st.queuep.messages_size - d.message_size))
          st.MAX_MESSAGES_SIZE) := by
  rw [device_read_eq st L d rest hq hnz, tmp_length_eq,
    read_loop_no_zero (min L d.message_size) d.message h0]
  have h2 : d.message.take (min L d.message_size) = d.message.take L := by
    rw [hsz]
    rcases le_total L d.message.length with hLl | hLl
    · rw [Nat.min_eq_left hLl]
    · rw [Nat.min_eq_right hLl, List.take_length,
        List.take_of_length_le hLl]
  rw [h2]
  have h3 : (d.message.take L).length = min L d.message_size := by
    rw [List.length_take, hsz]
  rw [h3]

/-- Witness for C4: a 10-byte message read with budgets 5 and 20. -/
theorem truncated_receive_witness :
    device_read tenState 5 = some ((5, [1, 2, 3, 4, 5]), drainedTenState) ∧
    device_read tenState 20 =
      some ((10, [1, 2, 3, 4, 5, 6, 7, 8, 9, 10]), drainedTenState) := by
  constructor
  · exact (truncated_receive tenState 5 (MessageQueueData.mk tenMessage 10) []
      rfl (by decide) (by decide) (by decide)).trans (by decide)
  · exact (truncated_receive tenState 20 (MessageQueueData.mk tenMessage 10) []
      rfl (by decide) (by decide) (by decide)).trans (by decide)

/-- C5.  Zero-byte early termination: the bytes a read delivers (and the byte
count it returns) are exactly the longest zero-free prefix of the first
`min L message_size` bytes of the head payload — the copy loop stops at the
first zero byte even when neither the budget `L` nor the stored length has
been reached. -/
theorem zero_byte_early_stop (st : DriverState) (L : Nat) (d : MessageQueueData)
    (rest : List MessageQueueData)
    (hq : st.queuep.queue = d :: rest)
    (hnz : st.queuep.messages_size ≠ 0) :
    device_read st L =
      some (((((d.message.take (min L d.message_size)).takeWhile
            (fun b => b != 0)).length : Int),
          (d.message.take (min L d.message_size)).takeWhile (fun b => b != 0)),
        DriverState.mk
          (MessageQueue.mk rest (st.queuep.messages_size - d.message_size))
          st.MAX_MESSAGES_SIZE) := by
  rw [device_read_eq st L d rest hq hnz, tmp_length_eq, read_loop_eq]

/-- Witness for C5: the message `[5, 0, 7]` read with budget 3 yields the
single byte `5`, stopping at the embedded zero before either limit. -/
theorem zero_byte_early_stop_witness :
    device_read zeroByteState 3 =
      some ((1, [5]),
        DriverState.mk (MessageQueue.mk [] 0) INITIAL_MAX_MESSAGES_SIZE) :=
  (zero_byte_early_stop zeroByteState 3 (MessageQueueData.mk [5, 0, 7] 3) []
    rfl (by decide)).trans (by decide)

/-- Base case of the wrap-around run: raising the aggregate limit to
`2^64 - 1` from the fresh state is an accepted resize. -/
lemma wrapStateAux_zero :
    wrapStateAux 0 =
      (device_ioctl initState CHANGE_MAX_MESSAGES_SIZE (ULONG_MOD - 1)).2 := by
  unfold wrapStateAux device_ioctl initState initialise_queue ULONG_MOD
    CHANGE_MAX_MESSAGES_SIZE
  norm_num

/-- Step of the wrap-around run: with the limit at `2^64 - 1` every 4096-byte
write is admitted — the wrapped admission sum can never exceed `2^64 - 1` —
and `enqueue` links one more node while `messages_size` advances mod `2^64`. -/
lemma wrapStateAux_step (n : Nat) :
    device_write (wrapStateAux n) (List.replicate 4096 1) 4096 =
      some (4096, wrapStateAux (n + 1)) := by
  have hmod : ((4096 * n) % ULONG_MOD + 4096 % 65536) % ULONG_MOD < ULONG_MOD :=
    Nat.mod_lt _ (by norm_num [ULONG_MOD])
  unfold device_write wrapStateAux is_space_in_queue enqueue
  rw [if_neg (by norm_num [MAX_MESSAGE_SIZE]), if_pos]
  · have hsz : ((4096 * n) % ULONG_MOD + 4096 % 65536) % ULONG_MOD =
        (4096 * (n + 1)) % ULONG_MOD := by
      simp only [ULONG_MOD]
      omega
    simp only [List.take_replicate, hsz]
    rw [show (4096 : Nat) % 65536 = 4096 by norm_num,
      show (4096 : Nat) ⊓ 4096 = 4096 by norm_num,
      show ({ message := List.replicate 4096 1, message_size := 4096 } :
        MessageQueueData) = wrapNode from rfl,
      ← List.replicate_succ']
    norm_num
  · rw [if_neg]
    simp only [ULONG_MOD] at *
    omega

/-- Every stage of the wrap-around run is reachable by completed serialized
operations. -/
lemma wrapStateAux_reachable : ∀ n : Nat, Reachable (wrapStateAux n) := by
  intro n
  induction n with
  | zero =>
    rw [wrapStateAux_zero]
    exact Reachable.ioctl initState CHANGE_MAX_MESSAGES_SIZE (ULONG_MOD - 1)
      Reachable.init
  | succ n ih =>
    exact Reachable.write (wrapStateAux n) (wrapStateAux (n + 1))
      (List.replicate 4096 1) 4096 4096 ih (wrapStateAux_step n)

/-- Counterexample to C6 as stated: `wrapState` is reachable by completed
serialized operations (resize to `2^64 - 1`, then `2^52` admitted 4096-byte
writes), yet its `unsigned long` byte total has wrapped to `0` while `2^64`
bytes of messages are linked from head, so `messages_size` is not the exact
sum of the resident lengths and the claimed conjunction fails. -/
theorem capacity_invariant_wrap_counterexample :
    Reachable wrapState ∧
    ¬(wrapState.queuep.messages_size ≤ wrapState.MAX_MESSAGES_SIZE ∧
      wrapState.queuep.messages_size = queue_bytes wrapState.queuep) := by
  refine ⟨wrapStateAux_reachable (2 ^ 52), fun h => ?_⟩
  have h2 := h.2
  unfold wrapState wrapStateAux queue_bytes wrapNode at h2
  simp only [List.map_replicate, List.sum_replicate, smul_eq_mul] at h2
  norm_num [ULONG_MOD] at h2

/-- Strengthened induction for the amended C6: along bounded runs the byte
total also keeps the limit small enough that no admission sum can wrap. -/
lemma capacity_invariant_bounded_aux (st : DriverState)
    (h : ReachableBounded st) :
    st.queuep.messages_size ≤ st.MAX_MESSAGES_SIZE ∧
    st.queuep.messages_size = queue_bytes st.queuep ∧
    st.MAX_MESSAGES_SIZE ≤ ULONG_MOD - 65536 := by
  induction h with
  | init =>
    refine ⟨?_, rfl, ?_⟩ <;>
      norm_num [initState, initialise_queue, INITIAL_MAX_MESSAGES_SIZE,
        ULONG_MOD]
  | write s s' buffer length r hst hw ih =>
    unfold device_write at hw
    by_cases hlen : length > MAX_MESSAGE_SIZE
    · rw [if_pos hlen] at hw
      simp only [Option.some.injEq, Prod.mk.injEq] at hw
      obtain ⟨-, rfl⟩ := hw
      exact ih
    · rw [if_neg hlen] at hw
      by_cases hsp : is_space_in_queue s.queuep length s.MAX_MESSAGES_SIZE = 1
      · rw [if_pos hsp] at hw
        simp only [Option.some.injEq, Prod.mk.injEq] at hw
        obtain ⟨-, rfl⟩ := hw
        have hle : (s.queuep.messages_size + length % 65536) % ULONG_MOD ≤
            s.MAX_MESSAGES_SIZE := by
          unfold is_space_in_queue at hsp
          by_cases hc : (s.queuep.messages_size + length % 65536) % ULONG_MOD >
              s.MAX_MESSAGES_SIZE
          · rw [if_pos hc] at hsp
            norm_num at hsp
          · omega
        have hexact : (s.queuep.messages_size + length % 65536) % ULONG_MOD =
            s.queuep.messages_size + length % 65536 := by
          apply Nat.mod_eq_of_lt
          have h1 := ih.1
          have h3 := ih.2.2
          have h4 : length % 65536 < 65536 := Nat.mod_lt _ (by norm_num)
          simp only [ULONG_MOD] at *
          omega
        refine ⟨?_, ?_, ih.2.2⟩
        · simp only [enqueue]
          omega
        · have h2 := ih.2.1
          simp only [enqueue, queue_bytes, List.map_append, List.sum_append,
            List.map_cons, List.map_nil, List.sum_cons, List.sum_nil] at h2 ⊢
          omega
      · rw [if_neg hsp] at hw
        exact absurd hw (by simp)
  | read s s' length r hst hr ih =>
    by_cases hz : s.queuep.messages_size = 0
    · rw [device_read_blocked s length hz] at hr
      exact absurd hr (by simp)
    · cases hq : s.queuep.queue with
      | nil =>
        rw [device_read_nil s length hq] at hr
        exact absurd hr (by simp)
      | cons d rest =>
        rw [device_read_eq s length d rest hq hz] at hr
        simp only [Option.some.injEq, Prod.mk.injEq] at hr
        obtain ⟨-, rfl⟩ := hr
        have h2 := ih.2.1
        unfold queue_bytes at h2
        rw [hq] at h2
        simp at h2
        refine ⟨?_, ?_, ih.2.2⟩
        · have h1 := ih.1
          simp only []
          omega
        · simp [queue_bytes]
          omega
  | ioctl s ioctl_num ioctl_param hb hst ih =>
    unfold device_ioctl
    by_cases h1 : ioctl_num = CHANGE_MAX_MESSAGES_SIZE
    · rw [if_pos h1]
      by_cases h2 : ioctl_param > s.queuep.messages_size
      · rw [if_pos h2]
        exact ⟨le_of_lt h2, ih.2.1, hb⟩
      · rw [if_neg h2]
        exact ih
    · rw [if_neg h1]
      exact ih

/-- C6 (amended).  Capacity and byte-count invariant for non-wrapping runs:
in every state reachable from module init by completed (serialized) write,
read and resize operations whose resize requests stay at most
`2^64 - 65536` — i.e. as long as the `unsigned long` byte arithmetic cannot
overflow — `messages_size` never exceeds the current `MAX_MESSAGES_SIZE`
(invariant I5) and equals the exact sum of the stored lengths of the messages
linked from head (invariant I3).  Without that restriction the invariant
fails at `wrapState`. -/
theorem capacity_invariant_bounded (st : DriverState)
    (h : ReachableBounded st) :
    st.queuep.messages_size ≤ st.MAX_MESSAGES_SIZE ∧
    st.queuep.messages_size = queue_bytes st.queuep :=
  ⟨(capacity_invariant_bounded_aux st h).1,
    (capacity_invariant_bounded_aux st h).2.1⟩

/-- Witness for the amended C6 at the reachable state left by writing
`[1, 2, 3]`. -/
theorem capacity_invariant_bounded_witness :
    threeByteState.queuep.messages_size ≤ threeByteState.MAX_MESSAGES_SIZE ∧
    threeByteState.queuep.messages_size = queue_bytes threeByteState.queuep :=
  capacity_invariant_bounded threeByteState
    (ReachableBounded.write initState threeByteState [1, 2, 3] 3 3
      ReachableBounded.init (by decide))

/-- C7.  Enqueue atomicity on allocation failure: when all three allocations
succeed, `enqueue` returns `SUCCESS` with the node fully linked at the rear
and `messages_size` increased by the message length (in the `unsigned long`
arithmetic of the field); when any allocation fails it returns `-1`, the
queue (head, rear, byte total) is exactly the input queue, and every
allocation that had succeeded is freed (frees = successful allocations), so
no partial state and no leak remain. -/
theorem enqueue_atomicity (q : MessageQueue) (message : List Nat)
    (message_size : Nat) (node_ok data_ok msg_ok : Bool) :
    (node_ok = true ∧ data_ok = true ∧ msg_ok = true →
      enqueue_result q message message_size node_ok data_ok msg_ok =
        (SUCCESS, enqueue q message message_size, 3, 0) ∧
      (enqueue q message message_size).queue =
        q.queue ++ [{ message := message.take (message_size % 65536),
                      message_size := message_size % 65536 }] ∧
      (enqueue q message message_size).messages_size =
        (q.messages_size + message_size % 65536) % ULONG_MOD) ∧
    (¬(node_ok = true ∧ data_ok = true ∧ msg_ok = true) →
      (enqueue_result q message message_size node_ok data_ok msg_ok).1 = -1 ∧
      (enqueue_result q message message_size node_ok data_ok msg_ok).2.1 = q ∧
      (enqueue_result q message message_size node_ok data_ok msg_ok).2.2.2 =
        (enqueue_result q message message_size node_ok data_ok msg_ok).2.2.1) := by
  constructor
  · rintro ⟨rfl, rfl, rfl⟩
    exact ⟨rfl, rfl, rfl⟩
  · intro hfail
    cases node_ok <;> cases data_ok <;> cases msg_ok <;>
      simp_all [enqueue_result]

/-- Witness for C7: the third allocation (the message buffer) fails while
enqueuing `[7]`; the error is surfaced, the queue is untouched, and both
earlier allocations are freed. -/
theorem enqueue_atomicity_witness :
    (enqueue_result initialise_queue [7] 1 true true false).1 = -1 ∧
    (enqueue_result initialise_queue [7] 1 true true false).2.1 =
      initialise_queue ∧
    (enqueue_result initialise_queue [7] 1 true true false).2.2.2 =
      (enqueue_result initialise_queue [7] 1 true true false).2.2.1 :=
  (enqueue_atomicity initialise_queue [7] 1 true true false).2 (by decide)

/-- C8.  The admission check and the enqueue mutation are NOT one atomic unit:
from the reachable state whose aggregate limit was lowered to 5 bytes, two
concurrent writers of 4 and 3 bytes each pass `is_space_in_queue` (the
`wait_event` predicate, evaluated under a lock that is then released), and
after both then run `enqueue` under fresh lock acquisitions the queue holds
7 bytes, overshooting the 5-byte `MAX_MESSAGES_SIZE` and violating I5. -/
theorem admission_check_race :
    Reachable raceState ∧
    write_check raceState 4 = true ∧
    write_check raceState 3 = true ∧
    (write_commit (write_commit raceState [1, 1, 1, 1] 4) [2, 2, 2] 3).queuep.messages_size
      > (write_commit (write_commit raceState [1, 1, 1, 1] 4) [2, 2, 2] 3).MAX_MESSAGES_SIZE :=
  ⟨Reachable.ioctl initState CHANGE_MAX_MESSAGES_SIZE 5 Reachable.init,
    by decide, by decide, by decide⟩

/-- C9.  Resize is non-blocking and frame-preserving on rejection: every
`device_ioctl` call either succeeds, or returns the `-EINVAL` error with the
driver state — queue head, rear, byte total, linked messages and the existing
aggregate limit — exactly as before the call; the function contains no wait,
so the (total) model returns on every input. -/
theorem resize_rejection_frame (st : DriverState)
    (ioctl_num ioctl_param : Nat) :
    (device_ioctl st ioctl_num ioctl_param).1 = SUCCESS ∨
    ((device_ioctl st ioctl_num ioctl_param).1 = -EINVAL ∧
      (device_ioctl st ioctl_num ioctl_param).2 = st) := by
  unfold device_ioctl
  by_cases h1 : ioctl_num = CHANGE_MAX_MESSAGES_SIZE
  · rw [if_pos h1]
    by_cases h2 : ioctl_param > st.queuep.messages_size
    · rw [if_pos h2]
      exact Or.inl rfl
    · rw [if_neg h2]
      exact Or.inr ⟨rfl, rfl⟩
  · rw [if_neg h1]
    exact Or.inr ⟨rfl, rfl⟩

/-- C10.  Emptiness is judged by the byte count, not by node presence:
`is_queue_empty` returns 1 exactly when `messages_size = 0`; a zero-length
write against the fresh queue completes successfully and links a node, yet
the queue still reports empty and every subsequent read blocks, never
delivering the zero-length message. -/
theorem emptiness_by_byte_count :
    (∀ q : MessageQueue, is_queue_empty q = 1 ↔ q.messages_size = 0) ∧
    device_write initState [] 0 = some (0, zeroLenState) ∧
    zeroLenState.queuep.queue ≠ [] ∧
    is_queue_empty zeroLenState.queuep = 1 ∧
    ∀ L : Nat, device_read zeroLenState L = none := by
  refine ⟨?_, by decide, by decide, by decide, ?_⟩
  · intro q
    by_cases h : q.messages_size = 0 <;> simp [is_queue_empty, h]
  · intro L
    exact device_read_blocked zeroLenState L rfl

end CharDev
